import Mathlib

/-
  Verification of the Android TV log cleaner (src/log_cleaner.py).

  The embedding models Python strings as List Char (ASCII idealization of
  the unicode-aware Python primitives), Python regular expressions of the
  shape used in the source as explicit substring and shape predicates, and
  the line loop of clean_logs as an Option-valued per-line function
  composed with List.filterMap.
-/

set_option maxRecDepth 20000

/-- chars converts a Lean string literal to the List Char representation
    used throughout the development. -/
def chars (s : String) : List Char := s.data

/-- Python str.lower restricted to ASCII letters, one character. -/
def lowerChar (c : Char) : Char :=
  if 65 ≤ c.toNat ∧ c.toNat ≤ 90 then Char.ofNat (c.toNat + 32) else c

/-- Python str.lower restricted to ASCII. -/
def lowerList (l : List Char) : List Char := l.map lowerChar

/-- ASCII whitespace, the characters Python str.strip removes. -/
def isSpaceChar (c : Char) : Bool :=
  c.toNat = 32 ∨ c.toNat = 9 ∨ c.toNat = 10 ∨ c.toNat = 13 ∨ c.toNat = 11 ∨ c.toNat = 12

/-- ASCII digit test, modelling the regex digit class. -/
def isDigitB (c : Char) : Bool := 48 ≤ c.toNat ∧ c.toNat ≤ 57

/-- ASCII lower-case letter test, modelling a caseless letter class
    applied to an already lower-cased line. -/
def isAlphaB (c : Char) : Bool := 97 ≤ c.toNat ∧ c.toNat ≤ 122

/-- Python str.strip: drop ASCII whitespace from both ends. -/
def stripList (l : List Char) : List Char :=
  ((l.dropWhile isSpaceChar).reverse.dropWhile isSpaceChar).reverse

/-- Python str.split on a newline: n separators yield n+1 pieces, and the
    empty string yields one empty piece. -/
def splitNl : List Char → List (List Char)
  | [] => [[]]
  | c :: t =>
    if c = '\n' then [] :: splitNl t
    else
      match splitNl t with
      | [] => [[c]]
      | h :: r => (c :: h) :: r

/-- Python substring containment (the in operator). -/
def isSub (p : List Char) : List Char → Bool
  | [] => p.isEmpty
  | c :: t => p.isPrefixOf (c :: t) || isSub p t

/-- Remainder of the line after the first occurrence of p, used to model a
    regex of the form .*a.*b.* as chained searches. -/
def findRest (p : List Char) : List Char → Option (List Char)
  | [] => if p.isEmpty then some [] else none
  | c :: t =>
    if p.isPrefixOf (c :: t) then some (List.drop (p.length - 1) t)
    else findRest p t

/-- Regex .*a.*b.* : an occurrence of a followed by an occurrence of b. -/
def seq2 (a b l : List Char) : Bool :=
  match findRest a l with
  | some r => isSub b r
  | none => false

/-- Regex .*a.*b.*c.* : three occurrences in order. -/
def seq3 (a b c l : List Char) : Bool :=
  match findRest a l with
  | some r => seq2 b c r
  | none => false

/-- An occurrence of p somewhere in the line whose following suffix
    satisfies f, modelling a literal followed by a character-class tail. -/
def subThen (p : List Char) (f : List Char → Bool) : List Char → Bool
  | [] => p.isEmpty && f []
  | c :: t => (p.isPrefixOf (c :: t) && f (List.drop p.length (c :: t))) || subThen p f t

/-- The suffix starts with a digit (regex digit-plus followed by anything). -/
def headDigit : List Char → Bool
  | [] => false
  | c :: _ => isDigitB c

/-- After one digit already consumed: regex digit-star dot digit-plus. -/
def starDotDigit : List Char → Bool
  | [] => false
  | c :: rest => (c = '.' && headDigit rest) || (isDigitB c && starDotDigit rest)

/-- The suffix starts with digit-plus, a dot, then digit-plus. -/
def digitsDotDigits : List Char → Bool
  | [] => false
  | c :: rest => isDigitB c && starDotDigit rest

/-- The suffix starts with three letters, a comma and a space, then two
    digits: the tail of the date header noise pattern. -/
def dateTail : List Char → Bool
  | a :: b :: c :: ',' :: ' ' :: d1 :: d2 :: _ =>
    isAlphaB a && isAlphaB b && isAlphaB c && isDigitB d1 && isDigitB d2
  | _ => false

/-- Python str.count auxiliary: non-overlapping occurrences, skipping the
    remainder of a match before searching again. -/
def countOccAux (p : List Char) : List Char → Nat → Nat
  | [], _ => 0
  | c :: t, 0 =>
    if p.isPrefixOf (c :: t) then 1 + countOccAux p t (p.length - 1)
    else countOccAux p t 0
  | _ :: t, k + 1 => countOccAux p t k

/-- Python str.count for a non-empty pattern. -/
def countOcc (p l : List Char) : Nat := countOccAux p l 0

/-- Decimal digit character. -/
def digitChar : Nat → Char
  | 0 => '0'
  | 1 => '1'
  | 2 => '2'
  | 3 => '3'
  | 4 => '4'
  | 5 => '5'
  | 6 => '6'
  | 7 => '7'
  | 8 => '8'
  | _ => '9'

/-- Fuel-driven decimal printer auxiliary. -/
def natCharsAux : Nat → Nat → List Char
  | 0, _ => []
  | f + 1, n =>
    if n < 10 then [digitChar n]
    else natCharsAux f (n / 10) ++ [digitChar (n % 10)]

/-- Python str of a natural number (decimal, no sign). -/
def natChars (n : Nat) : List Char := natCharsAux (n + 1) n

/-- The noise pattern registry of the source, matched against an already
    lower-cased line (the source matches with the case-insensitive flag).
    Each disjunct transliterates one regex of noise_patterns; the wildcard
    wrappers become substring searches. -/
def noiseMatch (w : List Char) : Bool :=
  seq3 (chars "bufferpoolaccessor2.0") (chars "bufferpool2") (chars "total buffers") w ||
  seq2 (chars "reflectedparamupdater") (chars "extent() != 1 for single value type") w ||
  isSub (chars "c2::u32 raw.sar.") w || isSub (chars "c2::u32 raw.rotation.") w ||
  isSub (chars "c2::u32 algo.buffers.") w ||
  subThen (chars "c2::i32 raw.rotation.flip = ") headDigit w ||
  subThen (chars "c2::i32 raw.rotation.value = ") headDigit w ||
  isSub (chars "content-type: application/json") w ||
  isSub (chars "cache-control:") w ||
  isSub (chars "etag:") w ||
  isSub (chars "age:") w ||
  isSub (chars "vary:") w ||
  isSub (chars "server: nginx") w || isSub (chars "server: cloudflare") w ||
  subThen (chars "date: ") dateTail w ||
  isSub (chars "alt-svc:") w ||
  isSub (chars "via:") w ||
  isSub (chars "x-cache:") w ||
  isSub (chars "\"adult\":false") w ||
  subThen (chars "\"gender\":") headDigit w ||
  subThen (chars "\"popularity\":") digitsDotDigits w ||
  isSub (chars "\"profile_path\"") w ||
  isSub (chars "\"backdrop_path\"") w ||
  isSub (chars "\"poster_path\"") w ||
  isSub (chars "\"vote_average\"") w ||
  isSub (chars "\"vote_count\"") w

/-- AndroidLogCleaner.is_noise. -/
def is_noise (l : List Char) : Bool := noiseMatch (lowerList l)

/-- The important pattern registry of the source, matched against an
    already lower-cased line. -/
def importantPatMatch (w : List Char) : Bool :=
  isSub (chars "moviedetailsviewmodel") w ||
  isSub (chars "playbackviewmodel") w ||
  isSub (chars "exoplayer") w ||
  isSub (chars "mediacodec") w ||
  isSub (chars "seasonselector") w ||
  (seq2 (chars "tvdetailsviewmodel") (chars "season") w ||
   seq2 (chars "tvdetailsviewmodel") (chars "episode") w) ||
  isSub (chars "tmdbtvrepository") w ||
  seq2 (chars "networkboundresource") (chars "api call") w ||
  isSub (chars "api call:") w ||
  isSub (chars "api result:") w ||
  isSub (chars "shouldfetch") w ||
  isSub (chars "url:") w ||
  isSub (chars "using url") w ||
  isSub (chars "source selected") w ||
  isSub (chars "playback") w ||
  seq2 (chars "exoplayerimpl") (chars "init") w ||
  isSub (chars "mediasourcefactory") w ||
  seq2 (chars "ccodec") (chars "allocate") w ||
  isSub (chars "created component") w ||
  isSub (chars "error") w ||
  isSub (chars "warning") w ||
  isSub (chars "warn") w ||
  isSub (chars "failed") w ||
  isSub (chars "corrupted") w ||
  isSub (chars "bad_index") w ||
  seq2 (chars "===") (chars "===") w ||
  isSub (chars "ui state") w ||
  isSub (chars "sources state") w ||
  seq2 (chars "debug [") (chars "]:") w

/-- important_keywords of the source, pre-lowered. -/
def importantKeywords : List (List Char) :=
  [chars "error", chars "warning", chars "exception", chars "crash", chars "fail",
   chars "failed", chars "season selection", chars "episode selection", chars "loading",
   chars "api call", chars "api result", chars "shouldfetch", chars "validation",
   chars "seasonselector", chars "episodes.size", chars "episodecount",
   chars "exoplayer", chars "playback", chars "source selected", chars "mediacodec",
   chars "ccodec", chars "allocate", chars "init", chars "created component",
   chars "ui state", chars "sources state", chars "moviedetails", chars "playbackviewmodel"]

/-- The keyword half of is_important: some keyword occurs case-insensitively. -/
def kwAny (l : List Char) : Bool :=
  importantKeywords.any (fun k => isSub k (lowerList l))

/-- AndroidLogCleaner.is_important: pattern match or keyword containment. -/
def is_important (l : List Char) : Bool := importantPatMatch (lowerList l) || kwAny l

/-- Shape matcher for the timestamp pattern: d stands for a digit, any
    other pattern character stands for itself. -/
def shapeMatch : List Char → List Char → Bool
  | [], [] => true
  | k :: ks, c :: cs => (if k = 'd' then isDigitB c else decide (c = k)) && shapeMatch ks cs
  | _, _ => false

/-- The 23-character timestamp shape of the source regex. -/
def tsPattern : List Char := chars "dddd-dd-dd dd:dd:dd.ddd"

/-- Leading timestamp extraction of simplify_json_response: the anchored
    regex group when the line starts with the timestamp shape, else empty. -/
def timestampOf (l : List Char) : List Char :=
  if shapeMatch tsPattern (l.take 23) then l.take 23 else []

/-- AndroidLogCleaner.simplify_json_response. -/
def simplify_json_response (l : List Char) : List Char :=
  if isSub (chars "\x7b\"") l && decide (200 < l.length) then
    timestampOf l ++
      (if isSub (chars "\"episodes\":[") l then
        chars "  [JSON Response] Season data with " ++
          natChars (countOcc (chars "\"episode_number\":") l) ++ chars " episodes (truncated)"
      else if isSub (chars "\"cast\":[") l then
        chars "  [JSON Response] Cast/crew data with " ++
          natChars (countOcc (chars "\"character\":") l) ++ chars " cast members (truncated)"
      else if isSub (chars "\"results\":[") l then
        chars "  [JSON Response] Search results with " ++
          natChars (countOcc (chars "\"id\":") l) ++ chars " items (truncated)"
      else
        chars "  [JSON Response] Large JSON payload (truncated)")
  else l

/-- The case-insensitive error keyword scan of the long-line fallback
    branch of clean_logs. -/
def errFallbackKw (l : List Char) : Bool :=
  [chars "error", chars "warning", chars "fail", chars "exception"].any
    (fun k => isSub k (lowerList l))

/-- One iteration of the clean_logs loop: the contribution of one raw
    input line, none when the line is dropped. -/
def processLine (l : List Char) : Option (List Char) :=
  if stripList l = [] then none
  else if is_noise (stripList l) then none
  else if is_important (stripList l) then some (simplify_json_response (stripList l))
  else if isSub (chars "com.rdwatch.androidtv") (stripList l) then
    if (stripList l).length < 800 then
      if isSub (chars "Dict \x7b") (stripList l) && isSub (chars "c2::") (stripList l) &&
          decide (400 < (stripList l).length) then none
      else some (simplify_json_response (stripList l))
    else if errFallbackKw (stripList l) then some (simplify_json_response (stripList l))
    else none
  else none

/-- The retained lines of AndroidLogCleaner.clean_logs, in order. -/
def cleanedLines (t : List Char) : List (List Char) :=
  (splitNl (stripList t)).filterMap processLine

/-- AndroidLogCleaner.clean_logs. -/
def clean_logs (t : List Char) : List Char :=
  List.intercalate ['\n'] (cleanedLines t)

/-- Season selection marker of add_summary. -/
def seasonSelB (l : List Char) : Bool :=
  isSub (chars "Season Selection") l || isSub (chars "Selecting season") l

/-- API call marker of add_summary. -/
def apiCallB (l : List Char) : Bool := isSub (chars "API CALL:") l

/-- Error or warning marker of add_summary (case-sensitive). -/
def errLineB (l : List Char) : Bool :=
  isSub (chars "Error") l || isSub (chars "WARNING") l || isSub (chars "WARN") l

/-- The first six summary lines: header and the four counters, then a
    blank line. -/
def countBlock (lines : List (List Char)) : List (List Char) :=
  [chars "=== LOG SUMMARY ===",
   chars "Total lines after cleanup: " ++ natChars lines.length,
   chars "Season selections: " ++ natChars (lines.filter seasonSelB).length,
   chars "API calls: " ++ natChars (lines.filter apiCallB).length,
   chars "Errors/Warnings: " ++ natChars (lines.filter errLineB).length,
   []]

/-- The errors/warnings block of add_summary: absent when no error lines,
    else the header, the first five error lines, a truncation notice when
    more than five, and a blank line. -/
def errBlock (errors : List (List Char)) : List (List Char) :=
  if errors.isEmpty then []
  else
    chars "=== ERRORS/WARNINGS ===" ::
      (errors.take 5 ++
        (if 5 < errors.length then
          [chars "... and " ++ natChars (errors.length - 5) ++ chars " more errors"]
        else []) ++
        [[]])

/-- The summary list built by add_summary before joining. -/
def summaryLines (c : List Char) : List (List Char) :=
  countBlock (splitNl c) ++ errBlock ((splitNl c).filter errLineB) ++
    [chars "=== CLEANED LOG DATA ===", []]

/-- AndroidLogCleaner.add_summary. -/
def add_summary (c : List Char) : List Char :=
  List.intercalate ['\n'] (summaryLines c) ++ c

/-- The first character surviving dropWhile fails the dropped predicate. -/
theorem head?_dropWhile_not (p : Char → Bool) :
    ∀ (l : List Char) (c : Char), (l.dropWhile p).head? = some c → p c = false := by
  intro l
  induction l with
  | nil => intro c h; cases h
  | cons a t ih =>
    intro c h
    by_cases hp : p a = true
    · rw [List.dropWhile_cons, if_pos hp] at h
      exact ih c h
    · rw [List.dropWhile_cons, if_neg hp] at h
      cases h
      exact Bool.eq_false_iff.mpr hp

/-- A nonempty dropWhile keeps the last element of the original list. -/
theorem getLast?_dropWhile (p : Char → Bool) (l : List Char)
    (h : l.dropWhile p ≠ []) : (l.dropWhile p).getLast? = l.getLast? := by
  conv_rhs => rw [← List.takeWhile_append_dropWhile (p := p) (l := l)]
  rw [List.getLast?_append]
  cases hd : (l.dropWhile p).getLast? with
  | none => exact absurd (List.getLast?_eq_none_iff.mp hd) h
  | some c => rfl

/-- The first character of a stripped line is not whitespace. -/
theorem stripList_head_not_space (l : List Char) (c : Char)
    (h : (stripList l).head? = some c) : isSpaceChar c = false := by
  unfold stripList at h
  rw [List.head?_reverse] at h
  by_cases hne : ((l.dropWhile isSpaceChar).reverse.dropWhile isSpaceChar) = []
  · rw [hne] at h; cases h
  · rw [getLast?_dropWhile _ _ hne] at h
    rw [List.getLast?_eq_head?_reverse, List.reverse_reverse] at h
    exact head?_dropWhile_not _ _ _ h

/-- The last character of a stripped line is not whitespace. -/
theorem stripList_getLast_not_space (l : List Char) (c : Char)
    (h : (stripList l).getLast? = some c) : isSpaceChar c = false := by
  unfold stripList at h
  rw [List.getLast?_eq_head?_reverse, List.reverse_reverse] at h
  exact head?_dropWhile_not _ _ _ h

/-- A list is a Boolean prefix of itself extended by anything. -/
theorem isPrefixOf_append_self (p q : List Char) : p.isPrefixOf (p ++ q) = true :=
  List.isPrefixOf_iff_prefix.mpr ⟨q, rfl⟩

/-- Boolean prefixes persist under extending the larger list. -/
theorem isPrefixOf_extend (p a b : List Char) (h : p.isPrefixOf a = true) :
    p.isPrefixOf (a ++ b) = true := by
  obtain ⟨t, rfl⟩ := List.isPrefixOf_iff_prefix.mp h
  rw [List.append_assoc]
  exact isPrefixOf_append_self p (t ++ b)

/-- A list with a nonempty Boolean prefix is nonempty. -/
theorem ne_nil_of_isPrefixOf_cons (p0 : Char) (pr b : List Char)
    (h : (p0 :: pr).isPrefixOf b = true) : b ≠ [] := by
  intro hb
  rw [hb] at h
  cases h

/-- A pattern whose first character never occurs in the line is not a
    substring of the line. -/
theorem isSub_eq_false (p0 : Char) (pr : List Char) :
    ∀ l : List Char, (∀ c ∈ l, c ≠ p0) → isSub (p0 :: pr) l = false := by
  intro l
  induction l with
  | nil => intro _; rfl
  | cons a t ih =>
    intro h
    have ha : (p0 == a) = false :=
      beq_eq_false_iff_ne.mpr fun he => (h a (List.mem_cons_self a t)) he.symm
    show (List.isPrefixOf (p0 :: pr) (a :: t) || isSub (p0 :: pr) t) = false
    rw [List.isPrefixOf_cons₂, ha, Bool.false_and, Bool.false_or]
    exact ih fun c hc => h c (List.mem_cons_of_mem a hc)

/-- filterMap results are a sublist of the corresponding map whenever each
    produced value agrees with the mapping function. -/
theorem filterMap_sublist {α β : Type} (f : α → Option β) (g : α → β)
    (hfg : ∀ a b, f a = some b → b = g a) :
    ∀ l : List α, List.Sublist (l.filterMap f) (l.map g) := by
  intro l
  induction l with
  | nil => exact List.Sublist.refl _
  | cons a t ih =>
    rw [List.filterMap_cons, List.map_cons]
    cases hfa : f a with
    | none => exact ih.cons (g a)
    | some b =>
      rw [hfg a b hfa]
      exact ih.cons₂ (g a)

/-- Whatever processLine retains is the summarized stripped line, and the
    stripped line was nonempty. -/
theorem processLine_some_eq {l x : List Char} (h : processLine l = some x) :
    x = simplify_json_response (stripList l) ∧ stripList l ≠ [] := by
  unfold processLine at h
  by_cases h1 : stripList l = []
  · rw [if_pos h1] at h; cases h
  · rw [if_neg h1] at h
    refine ⟨?_, h1⟩
    split at h
    · cases h
    · split at h
      · exact (Option.some.inj h).symm
      · split at h
        · split at h
          · split at h
            · cases h
            · exact (Option.some.inj h).symm
          · split at h
            · exact (Option.some.inj h).symm
            · cases h
        · cases h

/-- Keyword containment forces the importance check. -/
theorem kw_implies_important (s : List Char) (h : kwAny s = true) :
    is_important s = true := by
  unfold is_important
  rw [h, Bool.or_true]

/-- A nonempty, non-noise, important line is retained in summarized form. -/
theorem processLine_important (l : List Char) (hne : stripList l ≠ [])
    (hnn : is_noise (stripList l) = false) (himp : is_important (stripList l) = true) :
    processLine l = some (simplify_json_response (stripList l)) := by
  unfold processLine
  rw [if_neg hne, if_neg (by rw [hnn]; exact Bool.false_ne_true), if_pos himp]

/-- C1 counterexample: the line ERROR content-type: application/json
    contains the important keyword ERROR and is non-empty after trimming,
    yet the pipeline output is empty because the noise check runs first. -/
theorem C1_counterexample :
    kwAny (stripList (chars "ERROR content-type: application/json")) = true ∧
    stripList (chars "ERROR content-type: application/json") ≠ [] ∧
    cleanedLines (chars "ERROR content-type: application/json") = [] := by
  refine ⟨by decide, by decide, by decide⟩

/-- C1 amended: an input line that contains an important keyword
    case-insensitively, is non-empty after trimming, and does not match
    any noise pattern is retained (in summarized form) in the output,
    regardless of its length. -/
theorem C1_keyword_retention (t l : List Char) (hmem : l ∈ splitNl (stripList t))
    (hne : stripList l ≠ []) (hnn : is_noise (stripList l) = false)
    (hkw : kwAny (stripList l) = true) :
    simplify_json_response (stripList l) ∈ cleanedLines t := by
  unfold cleanedLines
  exact List.mem_filterMap.mpr
    ⟨l, hmem, processLine_important l hne hnn (kw_implies_important _ hkw)⟩

/-- C1 amended witness at a concrete keyword line. -/
theorem C1_keyword_retention_witness :
    simplify_json_response (stripList (chars "API CALL: fetch")) ∈
      cleanedLines (chars "API CALL: fetch") :=
  C1_keyword_retention (chars "API CALL: fetch") (chars "API CALL: fetch")
    (by decide) (by decide) (by decide) (by decide)

/-- C2: a line matching any noise pattern contributes nothing to the
    output; the drop happens before importance is evaluated, so it holds
    with no assumption on the importance check. -/
theorem C2_noise_dropped (l : List Char) (h : is_noise (stripList l) = true) :
    processLine l = none := by
  unfold processLine
  by_cases hs : stripList l = []
  · rw [if_pos hs]
  · rw [if_neg hs, if_pos h]

/-- C2 witness: a concrete line that is both noise and important is
    dropped. -/
theorem C2_noise_dropped_witness :
    is_noise (stripList (chars "ERROR content-type: application/json x")) = true ∧
    is_important (stripList (chars "ERROR content-type: application/json x")) = true ∧
    processLine (chars "ERROR content-type: application/json x") = none :=
  ⟨by decide, by decide,
    C2_noise_dropped (chars "ERROR content-type: application/json x") (by decide)⟩

/-- C3: a trimmed, non-empty line that is neither noise nor important is
    retained exactly when it contains the package marker and either is
    under 800 characters and escapes the verbose-dump deny-list, or is at
    least 800 characters and contains an error, warning, fail or
    exception marker case-insensitively. -/
theorem C3_fallback_retention (l : List Char) (hne : stripList l ≠ [])
    (hnn : is_noise (stripList l) = false) (hni : is_important (stripList l) = false) :
    processLine l ≠ none ↔
      (isSub (chars "com.rdwatch.androidtv") (stripList l) = true ∧
        (((stripList l).length < 800 ∧
            ¬(isSub (chars "Dict \x7b") (stripList l) = true ∧
              isSub (chars "c2::") (stripList l) = true ∧
              400 < (stripList l).length)) ∨
         (800 ≤ (stripList l).length ∧ errFallbackKw (stripList l) = true))) := by
  unfold processLine
  rw [if_neg hne, if_neg (by rw [hnn]; exact Bool.false_ne_true),
    if_neg (by rw [hni]; exact Bool.false_ne_true)]
  by_cases hm : isSub (chars "com.rdwatch.androidtv") (stripList l) = true
  · rw [if_pos hm]
    by_cases hlen : (stripList l).length < 800
    · rw [if_pos hlen]
      by_cases hv : (isSub (chars "Dict \x7b") (stripList l) &&
          isSub (chars "c2::") (stripList l) &&
          decide (400 < (stripList l).length)) = true
      · rw [if_pos hv]
        simp only [Bool.and_eq_true, decide_eq_true_eq] at hv
        constructor
        · intro hfalse; exact absurd rfl hfalse
        · rintro ⟨-, hcase⟩
          rcases hcase with ⟨-, hnot⟩ | ⟨h800, -⟩
          · exact absurd ⟨hv.1.1, hv.1.2, hv.2⟩ hnot
          · omega
      · rw [if_neg hv]
        constructor
        · intro _
          refine ⟨hm, Or.inl ⟨hlen, ?_⟩⟩
          rintro ⟨ha, hb, hc⟩
          exact hv (by rw [ha, hb]; simpa using hc)
        · intro _; exact Option.some_ne_none _
    · rw [if_neg hlen]
      by_cases he : errFallbackKw (stripList l) = true
      · rw [if_pos he]
        constructor
        · intro _; exact ⟨hm, Or.inr ⟨by omega, he⟩⟩
        · intro _; exact Option.some_ne_none _
      · rw [if_neg he]
        constructor
        · intro hfalse; exact absurd rfl hfalse
        · rintro ⟨-, hcase⟩
          rcases hcase with ⟨hl, -⟩ | ⟨-, hek⟩
          · exact absurd hl hlen
          · exact absurd hek he
  · rw [if_neg hm]
    constructor
    · intro hfalse; exact absurd rfl hfalse
    · rintro ⟨hm2, -⟩; exact absurd hm2 hm

/-- C3 witness: a concrete ordinary app line is retained by the fallback. -/
theorem C3_fallback_retention_witness :
    processLine (chars "com.rdwatch.androidtv test") ≠ none :=
  (C3_fallback_retention (chars "com.rdwatch.androidtv test")
      (by decide) (by decide) (by decide)).mpr
    ⟨by decide, Or.inl ⟨by decide, by decide⟩⟩

/-- C6: the retained lines are a sublist, in order and without
    fabrication or duplication, of the per-line summarized forms of the
    trimmed input lines. -/
theorem C6_subsequence (t : List Char) :
    List.Sublist (cleanedLines t)
      ((splitNl (stripList t)).map (fun l => simplify_json_response (stripList l))) :=
  filterMap_sublist processLine (fun l => simplify_json_response (stripList l))
    (fun _ _ h => (processLine_some_eq h).1) (splitNl (stripList t))

/-- C4: the summarizer triggers exactly on lines containing the open
    brace quote pair with length over 200; the payload kind is chosen by
    substring presence in priority order episodes, cast, results, generic,
    with the matching occurrence count; otherwise the line is unchanged. -/
theorem C4_summarizer_cases (l : List Char) :
    ((isSub (chars "\x7b\"") l && decide (200 < l.length)) = false →
      simplify_json_response l = l) ∧
    ((isSub (chars "\x7b\"") l && decide (200 < l.length)) = true →
      ((isSub (chars "\"episodes\":[") l = true →
          simplify_json_response l =
            timestampOf l ++ (chars "  [JSON Response] Season data with " ++
              natChars (countOcc (chars "\"episode_number\":") l) ++
              chars " episodes (truncated)")) ∧
       (isSub (chars "\"episodes\":[") l = false →
        isSub (chars "\"cast\":[") l = true →
          simplify_json_response l =
            timestampOf l ++ (chars "  [JSON Response] Cast/crew data with " ++
              natChars (countOcc (chars "\"character\":") l) ++
              chars " cast members (truncated)")) ∧
       (isSub (chars "\"episodes\":[") l = false →
        isSub (chars "\"cast\":[") l = false →
        isSub (chars "\"results\":[") l = true →
          simplify_json_response l =
            timestampOf l ++ (chars "  [JSON Response] Search results with " ++
              natChars (countOcc (chars "\"id\":") l) ++
              chars " items (truncated)")) ∧
       (isSub (chars "\"episodes\":[") l = false →
        isSub (chars "\"cast\":[") l = false →
        isSub (chars "\"results\":[") l = false →
          simplify_json_response l =
            timestampOf l ++ chars "  [JSON Response] Large JSON payload (truncated)"))) := by
  constructor
  · intro h
    unfold simplify_json_response
    rw [if_neg (by rw [h]; exact Bool.false_ne_true)]
  · intro ht
    refine ⟨?_, ?_, ?_, ?_⟩
    · intro hep
      unfold simplify_json_response
      rw [if_pos ht, if_pos hep]
    · intro hep hca
      unfold simplify_json_response
      rw [if_pos ht, if_neg (by rw [hep]; exact Bool.false_ne_true), if_pos hca]
    · intro hep hca hre
      unfold simplify_json_response
      rw [if_pos ht, if_neg (by rw [hep]; exact Bool.false_ne_true),
        if_neg (by rw [hca]; exact Bool.false_ne_true), if_pos hre]
    · intro hep hca hre
      unfold simplify_json_response
      rw [if_pos ht, if_neg (by rw [hep]; exact Bool.false_ne_true),
        if_neg (by rw [hca]; exact Bool.false_ne_true),
        if_neg (by rw [hre]; exact Bool.false_ne_true)]

/-- C4 witness at a concrete long generic JSON line. -/
theorem C4_summarizer_cases_witness :
    simplify_json_response (chars "\x7b\"key\": 1\x7d " ++ List.replicate 200 'a') =
      timestampOf (chars "\x7b\"key\": 1\x7d " ++ List.replicate 200 'a') ++
        chars "  [JSON Response] Large JSON payload (truncated)" :=
  ((C4_summarizer_cases (chars "\x7b\"key\": 1\x7d " ++ List.replicate 200 'a')).2
      (by decide)).2.2.2 (by decide) (by decide) (by decide)

/-- C5 counterexample: a triggered season line with three episode numbers
    is rewritten with a single space before the truncation marker, not the
    two spaces the claim states. -/
theorem C5_counterexample :
    simplify_json_response
        (chars "2024-01-01 10:00:00.000 \x7b\"episodes\":[\x7b\"episode_number\":1\x7d,\x7b\"episode_number\":2\x7d,\x7b\"episode_number\":3\x7d]\x7d" ++
          List.replicate 120 'a') =
      chars "2024-01-01 10:00:00.000  [JSON Response] Season data with 3 episodes (truncated)" ∧
    simplify_json_response
        (chars "2024-01-01 10:00:00.000 \x7b\"episodes\":[\x7b\"episode_number\":1\x7d,\x7b\"episode_number\":2\x7d,\x7b\"episode_number\":3\x7d]\x7d" ++
          List.replicate 120 'a') ≠
      chars "2024-01-01 10:00:00.000  [JSON Response] Season data with 3 episodes  (truncated)" := by
  refine ⟨by decide, by decide⟩

/-- C5 amended: a triggered line is rewritten to the timestamp, two
    spaces, the JSON Response tag, the kind and count text, and a single
    space before the truncation marker. -/
theorem C5_synopsis_format (l : List Char) (h1 : isSub (chars "\x7b\"") l = true)
    (h2 : 200 < l.length) :
    (isSub (chars "\"episodes\":[") l = true →
      simplify_json_response l =
        timestampOf l ++ (chars "  [JSON Response] Season data with " ++
          natChars (countOcc (chars "\"episode_number\":") l) ++
          chars " episodes (truncated)")) ∧
    (isSub (chars "\"episodes\":[") l = false →
     isSub (chars "\"cast\":[") l = true →
      simplify_json_response l =
        timestampOf l ++ (chars "  [JSON Response] Cast/crew data with " ++
          natChars (countOcc (chars "\"character\":") l) ++
          chars " cast members (truncated)")) ∧
    (isSub (chars "\"episodes\":[") l = false →
     isSub (chars "\"cast\":[") l = false →
     isSub (chars "\"results\":[") l = true →
      simplify_json_response l =
        timestampOf l ++ (chars "  [JSON Response] Search results with " ++
          natChars (countOcc (chars "\"id\":") l) ++
          chars " items (truncated)")) ∧
    (isSub (chars "\"episodes\":[") l = false →
     isSub (chars "\"cast\":[") l = false →
     isSub (chars "\"results\":[") l = false →
      simplify_json_response l =
        timestampOf l ++ chars "  [JSON Response] Large JSON payload (truncated)") := by
  have ht : (isSub (chars "\x7b\"") l && decide (200 < l.length)) = true := by
    rw [h1, Bool.true_and]
    exact decide_eq_true h2
  refine ⟨?_, ?_, ?_, ?_⟩
  · intro hep
    unfold simplify_json_response
    rw [if_pos ht, if_pos hep]
  · intro hep hca
    unfold simplify_json_response
    rw [if_pos ht, if_neg (by rw [hep]; exact Bool.false_ne_true), if_pos hca]
  · intro hep hca hre
    unfold simplify_json_response
    rw [if_pos ht, if_neg (by rw [hep]; exact Bool.false_ne_true),
      if_neg (by rw [hca]; exact Bool.false_ne_true), if_pos hre]
  · intro hep hca hre
    unfold simplify_json_response
    rw [if_pos ht, if_neg (by rw [hep]; exact Bool.false_ne_true),
      if_neg (by rw [hca]; exact Bool.false_ne_true),
      if_neg (by rw [hre]; exact Bool.false_ne_true)]

/-- C5 amended witness at a concrete long cast line. -/
theorem C5_synopsis_format_witness :
    simplify_json_response
        (chars "\x7b\"cast\":[\x7b\"character\":\"X\"\x7d]\x7d" ++ List.replicate 190 'b') =
      timestampOf (chars "\x7b\"cast\":[\x7b\"character\":\"X\"\x7d]\x7d" ++ List.replicate 190 'b') ++
        (chars "  [JSON Response] Cast/crew data with " ++
          natChars (countOcc (chars "\"character\":")
            (chars "\x7b\"cast\":[\x7b\"character\":\"X\"\x7d]\x7d" ++ List.replicate 190 'b')) ++
          chars " cast members (truncated)") :=
  (C5_synopsis_format (chars "\x7b\"cast\":[\x7b\"character\":\"X\"\x7d]\x7d" ++ List.replicate 190 'b')
      (by decide) (by decide)).2.1 (by decide) (by decide)

/-- C7 counterexample: on empty input the rendered summary reports a
    total of one line, not zero. -/
theorem C7_counterexample :
    isSub (chars "Total lines after cleanup: 0") (add_summary (clean_logs [])) = false ∧
    isSub (chars "Total lines after cleanup: 1") (add_summary (clean_logs [])) = true := by
  refine ⟨by decide, by decide⟩

/-- C7 amended: empty input reduces to the empty text; the summary then
    reports one for the total line count (the artifact of splitting the
    empty text into one empty line), zero for the three counters, no
    errors block, and an empty cleaned-data section. -/
theorem C7_empty_input_summary :
    clean_logs [] = [] ∧
    add_summary (clean_logs []) =
      chars "=== LOG SUMMARY ===\nTotal lines after cleanup: 1\nSeason selections: 0\nAPI calls: 0\nErrors/Warnings: 0\n\n=== CLEANED LOG DATA ===\n" := by
  refine ⟨by decide, by decide⟩

/-- C8: with exactly seven error lines the rendered summary shows the
    first five verbatim plus the notice about two more; in general with
    more than five, the notice names the excess count; with at most five
    no truncation notice appears. -/
theorem C8_error_block (c : List Char) :
    (((splitNl c).filter errLineB).length = 7 →
      summaryLines c =
        countBlock (splitNl c) ++
          (chars "=== ERRORS/WARNINGS ===" ::
            (((splitNl c).filter errLineB).take 5 ++ [chars "... and 2 more errors", []])) ++
          [chars "=== CLEANED LOG DATA ===", []]) ∧
    (∀ n : Nat, 5 < n → ((splitNl c).filter errLineB).length = n →
      errBlock ((splitNl c).filter errLineB) =
        chars "=== ERRORS/WARNINGS ===" ::
          (((splitNl c).filter errLineB).take 5 ++
            [chars "... and " ++ natChars (n - 5) ++ chars " more errors", []])) ∧
    (((splitNl c).filter errLineB).length ≤ 5 →
      errBlock ((splitNl c).filter errLineB) =
        if ((splitNl c).filter errLineB).isEmpty then []
        else chars "=== ERRORS/WARNINGS ===" :: ((splitNl c).filter errLineB ++ [[]])) := by
  refine ⟨?_, ?_, ?_⟩
  · intro h7
    have hne : ¬(((splitNl c).filter errLineB).isEmpty = true) := by
      rw [List.isEmpty_iff]
      intro h
      rw [h] at h7
      simp at h7
    unfold summaryLines errBlock
    rw [if_neg hne, h7, if_pos (by omega : 5 < 7)]
    have hnotice : chars "... and " ++ natChars (7 - 5) ++ chars " more errors" =
        chars "... and 2 more errors" := by decide
    rw [hnotice]
    simp
  · intro n hn hlen
    have hne : ¬(((splitNl c).filter errLineB).isEmpty = true) := by
      rw [List.isEmpty_iff]
      intro h
      rw [h] at hlen
      simp at hlen
      omega
    unfold errBlock
    rw [if_neg hne, hlen, if_pos hn]
    simp
  · intro hle
    by_cases hemp : ((splitNl c).filter errLineB).isEmpty = true
    · unfold errBlock
      rw [if_pos hemp, if_pos hemp]
    · unfold errBlock
      rw [if_neg hemp, if_neg hemp, List.take_of_length_le hle, if_neg (by omega)]
      simp

/-- C8 witness at a concrete reduced text with seven error lines. -/
theorem C8_error_block_witness :
    summaryLines (chars "Error 1\nError 2\nError 3\nError 4\nError 5\nError 6\nError 7") =
      countBlock (splitNl (chars "Error 1\nError 2\nError 3\nError 4\nError 5\nError 6\nError 7")) ++
        (chars "=== ERRORS/WARNINGS ===" ::
          (((splitNl (chars "Error 1\nError 2\nError 3\nError 4\nError 5\nError 6\nError 7")).filter errLineB).take 5 ++
            [chars "... and 2 more errors", []])) ++
        [chars "=== CLEANED LOG DATA ===", []] :=
  (C8_error_block (chars "Error 1\nError 2\nError 3\nError 4\nError 5\nError 6\nError 7")).1
    (by decide)

/-- Every character produced by digitChar is a decimal digit character. -/
theorem digitChar_mem (d : Nat) : digitChar d ∈ chars "0123456789" := by
  unfold digitChar
  split <;> decide

/-- Every character of the decimal printer is a decimal digit character. -/
theorem mem_natCharsAux : ∀ (f n : Nat) (c : Char), c ∈ natCharsAux f n →
    c ∈ chars "0123456789" := by
  intro f
  induction f with
  | zero =>
    intro n c h
    simp [natCharsAux] at h
  | succ f ih =>
    intro n c h
    by_cases hn : n < 10
    · rw [natCharsAux, if_pos hn] at h
      rcases List.mem_singleton.mp h with rfl
      exact digitChar_mem n
    · rw [natCharsAux, if_neg hn] at h
      rcases List.mem_append.mp h with h1 | h2
      · exact ih (n / 10) c h1
      · rcases List.mem_singleton.mp h2 with rfl
        exact digitChar_mem (n % 10)

/-- Every character of a printed natural number is a decimal digit. -/
theorem mem_natChars (n : Nat) (c : Char) (h : c ∈ natChars n) :
    c ∈ chars "0123456789" :=
  mem_natCharsAux (n + 1) n c h

/-- Characters accepted by the shape matcher are digits or pattern
    characters. -/
theorem shapeMatch_mem : ∀ (ks p : List Char), shapeMatch ks p = true →
    ∀ c ∈ p, isDigitB c = true ∨ c ∈ ks := by
  intro ks
  induction ks with
  | nil =>
    intro p h c hc
    cases p with
    | nil => cases hc
    | cons a t => simp [shapeMatch] at h
  | cons k ks ih =>
    intro p h c hc
    cases p with
    | nil => cases hc
    | cons a t =>
      rw [shapeMatch, Bool.and_eq_true] at h
      rcases List.mem_cons.mp hc with rfl | hct
      · by_cases hk : k = 'd'
        · rw [if_pos hk] at h
          exact Or.inl h.1
        · rw [if_neg hk] at h
          have : c = k := of_decide_eq_true h.1
          rw [this]
          exact Or.inr (List.mem_cons_self k ks)
      · rcases ih t h.2 c hct with hd | hk
        · exact Or.inl hd
        · exact Or.inr (List.mem_cons_of_mem k hk)

/-- Characters of an extracted timestamp are digits or timestamp
    punctuation. -/
theorem timestampOf_mem (l : List Char) (c : Char) (h : c ∈ timestampOf l) :
    isDigitB c = true ∨ c ∈ tsPattern := by
  unfold timestampOf at h
  split at h
  · next hs => exact shapeMatch_mem tsPattern (l.take 23) hs c h
  · cases h

/-- An untriggered line passes through the summarizer unchanged. -/
theorem simplify_eq_self_of_not_trigger (l : List Char)
    (h : ¬((isSub (chars "\x7b\"") l && decide (200 < l.length)) = true)) :
    simplify_json_response l = l := by
  unfold simplify_json_response
  rw [if_neg h]

/-- The summarizer either returns the line unchanged or produces a
    synopsis containing no open brace. -/
theorem simplify_no_lb (l : List Char) :
    simplify_json_response l = l ∨
      ∀ c ∈ simplify_json_response l, c ≠ '\x7b' := by
  by_cases ht : (isSub (chars "\x7b\"") l && decide (200 < l.length)) = true
  · right
    unfold simplify_json_response
    rw [if_pos ht]
    intro c hc
    rcases List.mem_append.mp hc with hts | hbody
    · rcases timestampOf_mem l c hts with hd | hp
      · intro he
        rw [he] at hd
        exact absurd hd (by decide)
      · exact (by decide : ∀ c ∈ tsPattern, c ≠ '\x7b') c hp
    · revert hbody
      split
      · intro hbody
        rcases List.mem_append.mp hbody with h12 | h3
        · rcases List.mem_append.mp h12 with h1 | h2
          · exact (by decide : ∀ c ∈ chars "  [JSON Response] Season data with ", c ≠ '\x7b') c h1
          · have := mem_natChars _ c h2
            exact (by decide : ∀ c ∈ chars "0123456789", c ≠ '\x7b') c this
        · exact (by decide : ∀ c ∈ chars " episodes (truncated)", c ≠ '\x7b') c h3
      · split
        · intro hbody
          rcases List.mem_append.mp hbody with h12 | h3
          · rcases List.mem_append.mp h12 with h1 | h2
            · exact (by decide : ∀ c ∈ chars "  [JSON Response] Cast/crew data with ", c ≠ '\x7b') c h1
            · have := mem_natChars _ c h2
              exact (by decide : ∀ c ∈ chars "0123456789", c ≠ '\x7b') c this
          · exact (by decide : ∀ c ∈ chars " cast members (truncated)", c ≠ '\x7b') c h3
        · split
          · intro hbody
            rcases List.mem_append.mp hbody with h12 | h3
            · rcases List.mem_append.mp h12 with h1 | h2
              · exact (by decide : ∀ c ∈ chars "  [JSON Response] Search results with ", c ≠ '\x7b') c h1
              · have := mem_natChars _ c h2
                exact (by decide : ∀ c ∈ chars "0123456789", c ≠ '\x7b') c this
            · exact (by decide : ∀ c ∈ chars " items (truncated)", c ≠ '\x7b') c h3
          · intro hbody
            exact (by decide : ∀ c ∈ chars "  [JSON Response] Large JSON payload (truncated)", c ≠ '\x7b') c hbody
  · left
    exact simplify_eq_self_of_not_trigger l ht

/-- C9: the payload summarizer is idempotent on every line: a synopsis
    never contains the open brace quote pair, so the trigger cannot fire
    on it again. -/
theorem C9_summarize_idempotent (l : List Char) :
    simplify_json_response (simplify_json_response l) = simplify_json_response l := by
  rcases simplify_no_lb l with h | h
  · rw [h]
    exact h
  · apply simplify_eq_self_of_not_trigger
    have hch : chars "\x7b\"" = '\x7b' :: ['"'] := rfl
    have hfalse : isSub (chars "\x7b\"") (simplify_json_response l) = false := by
      rw [hch]
      exact isSub_eq_false '\x7b' ['"'] _ h
    rw [hfalse, Bool.false_and]
    exact Bool.false_ne_true

/-- The optional head of a nonempty list is its head with default. -/
theorem head?_eq_headD (l : List Char) (h : l ≠ []) : l.head? = some (l.headD 'x') := by
  cases l with
  | nil => exact absurd rfl h
  | cons a t => rfl

/-- The optional last of a nonempty list is its last with default. -/
theorem getLast?_eq_getLastD (l : List Char) (h : l ≠ []) :
    l.getLast? = some (l.getLastD 'x') := by
  cases hg : l.getLast? with
  | none => exact absurd (List.getLast?_eq_none_iff.mp hg) h
  | some a => rw [List.getLastD_eq_getLast?, hg]; rfl

/-- The last element with default of an append is that of the nonempty
    right part. -/
theorem getLastD_append_right (a b : List Char) (d : Char) (hb : b ≠ []) :
    (a ++ b).getLastD d = b.getLastD d := by
  rw [List.getLastD_eq_getLast?, List.getLastD_eq_getLast?, List.getLast?_append]
  cases hg : b.getLast? with
  | none => exact absurd (List.getLast?_eq_none_iff.mp hg) hb
  | some x => rfl

/-- A digit character is not whitespace. -/
theorem digit_not_space (c : Char) (h : isDigitB c = true) : isSpaceChar c = false := by
  unfold isDigitB at h
  unfold isSpaceChar
  have h' := of_decide_eq_true h
  exact decide_eq_false (by omega)

/-- A nonempty extracted timestamp starts with a digit. -/
theorem timestampOf_head_digit (l : List Char) (c : Char) (cs : List Char)
    (h : timestampOf l = c :: cs) : isDigitB c = true := by
  unfold timestampOf at h
  split at h
  · next hs =>
    rw [h] at hs
    have hpat : tsPattern = 'd' :: chars "ddd-dd-dd dd:dd:dd.ddd" := rfl
    rw [hpat, shapeMatch, Bool.and_eq_true] at hs
    have h1 := hs.1
    rw [if_pos rfl] at h1
    exact h1
  · cases h

/-- A triggered line is rewritten to its timestamp followed by a synopsis
    body that starts with the JSON Response tag and ends with a closing
    parenthesis. -/
theorem simplify_triggered_struct (l : List Char)
    (ht : (isSub (chars "\x7b\"") l && decide (200 < l.length)) = true) :
    ∃ body : List Char,
      simplify_json_response l = timestampOf l ++ body ∧
      (chars "  [JSON Response] ").isPrefixOf body = true ∧
      body.getLastD 'x' = ')' := by
  unfold simplify_json_response
  rw [if_pos ht]
  by_cases hep : isSub (chars "\"episodes\":[") l = true
  · rw [if_pos hep]
    refine ⟨_, rfl, isPrefixOf_extend _ _ _ (isPrefixOf_extend _ _ _ (by decide)), ?_⟩
    rw [getLastD_append_right _ _ _ (by decide)]
    decide
  · rw [if_neg hep]
    by_cases hca : isSub (chars "\"cast\":[") l = true
    · rw [if_pos hca]
      refine ⟨_, rfl, isPrefixOf_extend _ _ _ (isPrefixOf_extend _ _ _ (by decide)), ?_⟩
      rw [getLastD_append_right _ _ _ (by decide)]
      decide
    · rw [if_neg hca]
      by_cases hre : isSub (chars "\"results\":[") l = true
      · rw [if_pos hre]
        refine ⟨_, rfl, isPrefixOf_extend _ _ _ (isPrefixOf_extend _ _ _ (by decide)), ?_⟩
        rw [getLastD_append_right _ _ _ (by decide)]
        decide
      · rw [if_neg hre]
        exact ⟨_, rfl, by decide, by decide⟩

/-- C10 counterexample: a retained important long JSON line without a
    timestamp prefix is rewritten to a synopsis that begins with a space,
    so an output line can carry leading whitespace. -/
theorem C10_counterexample :
    cleanedLines (chars "ERROR \x7b\"episodes\":[" ++ List.replicate 200 'a') =
      [chars "  [JSON Response] Season data with 0 episodes (truncated)"] ∧
    isSpaceChar ((chars "  [JSON Response] Season data with 0 episodes (truncated)").headD 'x') = true := by
  refine ⟨by decide, by decide⟩

/-- C10 amended: every output line is non-empty and has no trailing
    whitespace; it also has no leading whitespace unless it is a
    summarizer synopsis, which starts with the two-space JSON Response
    tag when the line had no timestamp prefix. -/
theorem C10_output_lines_shape (t x : List Char) (hx : x ∈ cleanedLines t) :
    x ≠ [] ∧ isSpaceChar (x.getLastD 'x') = false ∧
      (isSpaceChar (x.headD 'x') = false ∨
        (chars "  [JSON Response] ").isPrefixOf x = true) := by
  obtain ⟨l, hl, hpl⟩ := List.mem_filterMap.mp hx
  obtain ⟨hxeq, hne⟩ := processLine_some_eq hpl
  by_cases ht : (isSub (chars "\x7b\"") (stripList l) &&
      decide (200 < (stripList l).length)) = true
  · obtain ⟨body, hb, hpfx, hlast⟩ := simplify_triggered_struct (stripList l) ht
    rw [hxeq, hb]
    have hbodyne : body ≠ [] := by
      intro h0
      rw [h0] at hpfx
      exact absurd hpfx (by decide)
    refine ⟨?_, ?_, ?_⟩
    · intro h0
      exact hbodyne (List.append_eq_nil.mp h0).2
    · rw [getLastD_append_right _ _ _ hbodyne, hlast]
      decide
    · cases hts : timestampOf (stripList l) with
      | nil =>
        right
        rw [List.nil_append]
        exact hpfx
      | cons c cs =>
        left
        exact digit_not_space c (timestampOf_head_digit _ _ _ hts)
  · rw [hxeq, simplify_eq_self_of_not_trigger _ ht]
    refine ⟨hne, ?_, Or.inl ?_⟩
    · exact stripList_getLast_not_space l _ (getLast?_eq_getLastD _ hne)
    · exact stripList_head_not_space l _ (head?_eq_headD _ hne)

/-- C10 amended witness at a concrete retained line. -/
theorem C10_output_lines_shape_witness :
    chars "API CALL: fetch" ≠ [] ∧
    isSpaceChar ((chars "API CALL: fetch").getLastD 'x') = false ∧
    (isSpaceChar ((chars "API CALL: fetch").headD 'x') = false ∨
      (chars "  [JSON Response] ").isPrefixOf (chars "API CALL: fetch") = true) :=
  C10_output_lines_shape (chars "API CALL: fetch") (chars "API CALL: fetch") (by decide)
